import Mathlib

/-!
Shallow embedding of the vtkDICOMValue attribute-value container
(src/vtkDICOMValue.h).  The header declares the public interface and
implements the handle-level operations (copy construction, Clear,
IsValid, GetVL, GetNumberOfValues, assignment) inline; the cell-level
operations (typed constructors, the conversion engine, substring
indexing, equality, reallocation) are declared in the header and
documented there, but their bodies live outside the repository slice,
so they are modelled from the spec as marked on each definition.
Machine scalars are Nat/Int with explicit ranges; C++ float/double are
modelled as exact rationals (the claims under study only exercise
value-preserving paths, never rounding).
-/

namespace VtkDicom

/-- Modelled from the spec: the external VR collaborator
(vtkDICOMVR.h is outside the slice).  The enumeration lists the VR
codes named by the header's documentation: backslash-delimited text,
single-block text, binary numeric, other-byte/unknown, attribute tag
and sequence representations. -/
inductive vtkDICOMVR
  | AE | AS | AT | CS | DA | DS | DT | FD | FL | IS | LO | LT | OB | OF
  | OW | PN | SH | SL | SQ | SS | ST | TM | UI | UL | UN | US | UT | XQ
  deriving DecidableEq, Repr, Fintype

/-- Modelled from the spec: the external Tag collaborator
(vtkDICOMTag.h is outside the slice), an opaque (group, element) pair. -/
structure vtkDICOMTag where
  group : Nat
  element : Nat
  deriving DecidableEq, Repr

/-- Modelled from the spec: the external structured-item collaborator
(vtkDICOMItem is outside the slice); the core only stores, copies and
compares items, so it is opaque with decidable equality. -/
structure vtkDICOMItem where
  ident : Nat
  deriving DecidableEq, Repr

/-- Backslash-delimited text VRs, per the GetNumberOfValues doc comment
(header lines 117-118) together with TM, which the header's
GetCharData documentation (line 183) lists among the text VRs. -/
def vtkDICOMVR.isTextDelim : vtkDICOMVR → Bool
  | .AE | .AS | .CS | .DA | .DS | .DT | .IS | .LO | .PN | .SH | .TM | .UI => true
  | _ => false

/-- Single-block text VRs (LT, ST, UT), header line 119. -/
def vtkDICOMVR.isTextSingle : vtkDICOMVR → Bool
  | .LT | .ST | .UT => true
  | _ => false

/-- Any text VR: its cell stores character data. -/
def vtkDICOMVR.isText (vr : vtkDICOMVR) : Bool :=
  vr.isTextDelim || vr.isTextSingle

/-- The scalar element kinds of the conversion engine: unsigned char,
signed/unsigned 16-bit and 32-bit integers, float, double, tag. -/
inductive SKind
  | u8 | i16 | u16 | i32 | u32 | f32 | f64 | tg
  deriving DecidableEq, Repr, Fintype

/-- The Lean carrier of each scalar kind.  Integer kinds use Nat/Int
with their machine range stated separately (SKind.inRange); the two
floating kinds are modelled as exact rationals. -/
@[reducible] def SKind.carrier : SKind → Type
  | .u8 => Nat
  | .u16 => Nat
  | .u32 => Nat
  | .i16 => Int
  | .i32 => Int
  | .f32 => Rat
  | .f64 => Rat
  | .tg => vtkDICOMTag

/-- sizeof the element type in bytes. -/
def SKind.size : SKind → Nat
  | .u8 => 1
  | .i16 => 2
  | .u16 => 2
  | .i32 => 4
  | .u32 => 4
  | .f32 => 4
  | .f64 => 8
  | .tg => 4

/-- The zero value of each kind (what failed reads return). -/
def SKind.zero : (k : SKind) → k.carrier
  | .u8 => (0 : Nat)
  | .u16 => (0 : Nat)
  | .u32 => (0 : Nat)
  | .i16 => (0 : Int)
  | .i32 => (0 : Int)
  | .f32 => (0 : Rat)
  | .f64 => (0 : Rat)
  | .tg => ⟨0, 0⟩

/-- The machine range of each kind's C++ type. -/
def SKind.inRange : (k : SKind) → k.carrier → Prop
  | .u8, n => n < 256
  | .u16, n => n < 65536
  | .u32, n => n < 4294967296
  | .i16, n => -32768 ≤ n ∧ n < 32768
  | .i32, n => -2147483648 ≤ n ∧ n < 2147483648
  | .f32, _ => True
  | .f64, _ => True
  | .tg, t => t.group < 65536 ∧ t.element < 65536

/-- Numeric view of a scalar (tags never convert through numbers and
give 0 here; the conversion engine treats them separately). -/
def SKind.toRat : (k : SKind) → k.carrier → Rat
  | .u8, n => (n : Rat)
  | .u16, n => (n : Rat)
  | .u32, n => (n : Rat)
  | .i16, n => (n : Rat)
  | .i32, n => (n : Rat)
  | .f32, q => q
  | .f64, q => q
  | .tg, _ => 0

/-- Truncation toward zero, the C++ float-to-integer conversion. -/
def ratTrunc (q : Rat) : Int :=
  if q < 0 then ⌈q⌉ else ⌊q⌋

/-- Clamp an integer into [lo, hi]. -/
def clampI (lo hi x : Int) : Int := max lo (min hi x)

/-- Clamp an integer into [0, hi] and view it as a Nat. -/
def clampN (hi : Nat) (x : Int) : Nat := (clampI 0 hi x).toNat

/-- Modelled from the spec: numeric conversion into a scalar kind.
The spec requires one deterministic documented rule for narrowing; the
model truncates toward zero and saturates to the target range. -/
def SKind.ofRat : (k : SKind) → Rat → k.carrier
  | .u8, q => clampN 255 (ratTrunc q)
  | .u16, q => clampN 65535 (ratTrunc q)
  | .u32, q => clampN 4294967295 (ratTrunc q)
  | .i16, q => clampI (-32768) 32767 (ratTrunc q)
  | .i32, q => clampI (-2147483648) 2147483647 (ratTrunc q)
  | .f32, q => q
  | .f64, q => q
  | .tg, _ => ⟨0, 0⟩

/-- The trailing typed array of a value cell: one constructor per
element kind the header stores (text bytes, the numeric kinds, tags,
items for sequences). -/
inductive CellData
  | chars (s : String)
  | uchars (l : List Nat)
  | shorts (l : List Int)
  | ushorts (l : List Nat)
  | ints (l : List Int)
  | uints (l : List Nat)
  | floats (l : List Rat)
  | doubles (l : List Rat)
  | tags (l : List vtkDICOMTag)
  | items (l : List vtkDICOMItem)
  deriving DecidableEq, Repr

/-- The type constant stored in Value::Type (VTK type constants, with
VTK_DICOM_TAG = 13 and VTK_DICOM_ITEM = 14 from the header). -/
def CellData.typeTag : CellData → Nat
  | .chars _ => 2
  | .uchars _ => 3
  | .shorts _ => 4
  | .ushorts _ => 5
  | .ints _ => 6
  | .uints _ => 7
  | .floats _ => 10
  | .doubles _ => 11
  | .tags _ => 13
  | .items _ => 14

/-- Byte length of the stored array. -/
def CellData.byteLength : CellData → Nat
  | .chars s => s.length
  | .uchars l => l.length
  | .shorts l => 2 * l.length
  | .ushorts l => 2 * l.length
  | .ints l => 4 * l.length
  | .uints l => 4 * l.length
  | .floats l => 4 * l.length
  | .doubles l => 8 * l.length
  | .tags l => 4 * l.length
  | .items _ => 0

/-- Element size in bytes of the stored kind. -/
def CellData.elemSize : CellData → Nat
  | .chars _ => 1
  | .uchars _ => 1
  | .shorts _ => 2
  | .ushorts _ => 2
  | .ints _ => 4
  | .uints _ => 4
  | .floats _ => 4
  | .doubles _ => 8
  | .tags _ => 4
  | .items _ => 1

/-- Wrap a typed element list as cell data. -/
def SKind.pack : (k : SKind) → List k.carrier → CellData
  | .u8, l => .uchars l
  | .i16, l => .shorts l
  | .u16, l => .ushorts l
  | .i32, l => .ints l
  | .u32, l => .uints l
  | .f32, l => .floats l
  | .f64, l => .doubles l
  | .tg, l => .tags l

/-- The reference-counted storage cell of vtkDICOMValue (struct Value,
header lines 28-37), minus the reference count, which belongs to the
heap model below: type tag (derived from the data), VR, value length
in bytes, and the value multiplicity. -/
structure Cell where
  VR : vtkDICOMVR
  VL : Nat
  NumberOfValues : Nat
  data : CellData
  deriving DecidableEq, Repr

/-- A value handle's observable content: none is the invalid state
(null internal pointer), some c a cell. -/
abbrev DValue := Option Cell

/-- IsValid, header line 105: true exactly when the internal pointer
is non-null. -/
def IsValid (v : DValue) : Bool := v.isSome

/-- GetVL, header line 111: the cell's VL, or 0 for an invalid value. -/
def GetVL : DValue → Nat
  | none => 0
  | some c => c.VL

/-- GetNumberOfValues, header lines 127-128: the cell's multiplicity,
or 0 for an invalid value. -/
def GetNumberOfValues : DValue → Nat
  | none => 0
  | some c => c.NumberOfValues

/-- Round a byte count up to an even number (the allocator's padding
rule: VL reported outside is always even). -/
def roundUpEven (n : Nat) : Nat := n + n % 2

/-- The undefined-length sentinel 0xffffffff. -/
def VL_UNDEFINED : Nat := 0xffffffff

/-- Split a character buffer at backslashes into its fields. -/
def splitBS : List Char → List (List Char)
  | [] => [[]]
  | c :: t =>
    match splitBS t with
    | [] => [[]]
    | f :: fs => if c = '\\' then [] :: f :: fs else (c :: f) :: fs

/-- The backslash-separated fields of a text buffer, as strings. -/
def fieldsOf (s : String) : List String := (splitBS s.toList).map String.mk

/-- Modelled from the spec: the multi-value indexer's element count
for character data (GetNumberOfValues doc, header lines 113-126): the
number of backslash-separated fields, except that single-block text
(LT, ST, UT) always counts 1. -/
def textNumberOfValues (vr : vtkDICOMVR) (s : String) : Nat :=
  if vr.isTextSingle then 1 else (splitBS s.toList).length

/-- Build a text cell: VL is the byte length rounded up to even. -/
def mkTextCell (vr : vtkDICOMVR) (s : String) : Cell :=
  ⟨vr, roundUpEven s.length, textNumberOfValues vr s, .chars s⟩

/-- Build a binary cell of kind k: count is the element count, VL the
byte length rounded up to even. -/
def mkBinCell (vr : vtkDICOMVR) (k : SKind) (l : List k.carrier) : Cell :=
  ⟨vr, roundUpEven (k.size * l.length), l.length, k.pack l⟩

/-- The binary storage kind a VR demands, per the constructor doc
(header lines 57-62): OB and UN store unsigned char, OW stores shorts,
AT stores tags (handled separately), and each numeric VR stores its
own width. -/
def vtkDICOMVR.binKind : vtkDICOMVR → Option SKind
  | .OB => some .u8
  | .UN => some .u8
  | .SS => some .i16
  | .US => some .u16
  | .OW => some .u16
  | .SL => some .i32
  | .UL => some .u32
  | .FL => some .f32
  | .OF => some .f32
  | .FD => some .f64
  | _ => none

/-- The kind actually stored when source data of kind k arrives under
vr: OW accepts signed shorts as such (header line 59 allows either
signed or unsigned short for OW), otherwise the VR's own kind. -/
def vtkDICOMVR.storeKind (vr : vtkDICOMVR) (k : SKind) : Option SKind :=
  match vr, k with
  | .OW, .i16 => some .i16
  | _, _ => vr.binKind

/-- Convert a typed element list to the storage kind, element-wise
through the numeric conversion rule. -/
def convertList (k k2 : SKind) (l : List k.carrier) : List k2.carrier :=
  l.map (fun v => k2.ofRat (k.toRat v))

/-- Canonical text rendering of a rational (deterministic; integers
render as plain decimal integers). -/
def renderRat (q : Rat) : String :=
  if q.den = 1 then toString q.num else toString q.num ++ "/" ++ toString q.den

/-- Text rendering of one scalar element. -/
def SKind.render : (k : SKind) → k.carrier → String
  | .u8, n => toString n
  | .u16, n => toString n
  | .u32, n => toString n
  | .i16, n => toString n
  | .i32, n => toString n
  | .f32, q => renderRat q
  | .f64, q => renderRat q
  | .tg, t => toString t.group ++ "," ++ toString t.element

/-- Modelled from the spec: the typed constructors
vtkDICOMValue(vr, data, end) (header lines 63-83, body outside the
slice).  Data is copied with conversion as necessary: text VRs render
numbers into a backslash-joined buffer, binary VRs convert to their
storage kind, AT accepts only tags; data that cannot be converted to
the type required by the VR produces the invalid value. -/
def CreateValue (vr : vtkDICOMVR) : (k : SKind) → List k.carrier → DValue
  | .tg, l => if vr = .AT then some ⟨vr, 4 * l.length, l.length, .tags l⟩ else none
  | k, l =>
    if vr.isText then
      some (mkTextCell vr (String.intercalate "\\" (l.map k.render)))
    else
      match vr.storeKind k with
      | some k2 => some (mkBinCell vr k2 (convertList k k2 l))
      | none => none

/-- Parse the leading unsigned decimal digits of a character list. -/
def parseDigits (l : List Char) : Nat :=
  l.foldl (fun a c => a * 10 + (c.toNat - 48)) 0

/-- The scaled integer reading of a decimal string: the digits with
the decimal point dropped, as an integer, together with the number of
fraction digits (the power of ten scaling them down). -/
def parseScaled (s : String) : Int × Nat :=
  let l := s.toList
  let neg := l.head? = some '-'
  let l2 := if l.head? = some '-' ∨ l.head? = some '+' then l.tail else l
  let ds := l2.takeWhile Char.isDigit
  let rest := l2.drop ds.length
  let fs :=
    match rest with
    | '.' :: t => t.takeWhile Char.isDigit
    | _ => []
  let m : Int := (parseDigits ds * 10 ^ fs.length + parseDigits fs : Nat)
  (if neg then -m else m, fs.length)

/-- Modelled from the spec: DICOM numeric-string parsing (IS and DS).
An optional sign, leading decimal digits, and an optional fraction
part; text with no leading digits parses to zero, not an error. -/
def parseRat (s : String) : Rat :=
  let p := parseScaled s
  if p.2 = 0 then (p.1 : Rat) else (p.1 : Rat) / ((10 : Rat) ^ p.2)

/-- Modelled from the spec: the std::string constructor
vtkDICOMValue(vr, v) (header line 64, body outside the slice): text
VRs store the bytes, binary VRs parse the backslash-separated fields
as numbers; AT and sequence VRs cannot be built from a string. -/
def CreateStringValue (vr : vtkDICOMVR) (s : String) : DValue :=
  if vr.isText then
    some (mkTextCell vr s)
  else
    match vr.binKind with
    | some k2 => some (mkBinCell vr k2 ((fieldsOf s).map (fun f => k2.ofRat (parseRat f))))
    | none => none

/-- Modelled from the spec: the sequence constructor
vtkDICOMValue(const vtkDICOMSequence &) (header line 90).  A sequence
cell stores its items; its byte length is not yet known, so VL is the
undefined-length sentinel, and the multiplicity is the item count
including delimiter items. -/
def CreateSequenceValue (vr : vtkDICOMVR) (l : List vtkDICOMItem) : DValue :=
  if vr = .SQ ∨ vr = .XQ then some ⟨vr, VL_UNDEFINED, l.length, .items l⟩ else none

/-- Resize a byte list to vn elements, keeping a prefix and
zero-filling any extension. -/
def resizeBytes (l : List Nat) (vn : Nat) : List Nat :=
  l.take vn ++ List.replicate (vn - l.length) 0

/-- Modelled from the spec: ReallocateUnsignedCharData (header lines
225-232, body outside the slice).  On an unsigned-char (OB/UN) cell it
grows or shrinks the byte array; afterwards NumberOfValues is vn and
VL is 0xffffffff.  Other cells are not byte cells and are left as they
are. -/
def ReallocateUnsignedCharData (v : DValue) (vn : Nat) : DValue :=
  match v with
  | none => none
  | some c =>
    match c.data with
    | .uchars l => some ⟨c.VR, VL_UNDEFINED, vn, .uchars (resizeBytes l vn)⟩
    | _ => some c

/-- Modelled from the spec: AllocateCharData (header lines 207-223).
The header documents that allocation does no checks that the data
type matches the VR: it always hands back a freshly allocated char
cell of vn elements under the requested VR. -/
def AllocateCharData (vr : vtkDICOMVR) (vn : Nat) : DValue :=
  some ⟨vr, roundUpEven vn, vn, .chars (String.mk (List.replicate vn ' '))⟩

/-- Whether the typed constructor can represent source kind k under
vr at all (with conversion): tags only under AT, numeric kinds under
any text or binary-numeric VR. -/
def convertible (vr : vtkDICOMVR) (k : SKind) : Bool :=
  match k with
  | .tg => vr = .AT
  | _ => vr.isText || (vr.binKind).isSome

/-- Whether vr stores kind k exactly (no conversion): the round-trip
compatibility of the constructor doc, header lines 57-62. -/
def compatible (vr : vtkDICOMVR) (k : SKind) : Bool :=
  match k with
  | .tg => vr = .AT
  | k => vr.storeKind k = some k

/-- The i-th stored element as a rational, for numeric cells only. -/
def CellData.numAt : CellData → Nat → Option Rat
  | .uchars l, i => l[i]?.map (fun n => (n : Rat))
  | .shorts l, i => l[i]?.map (fun n => (n : Rat))
  | .ushorts l, i => l[i]?.map (fun n => (n : Rat))
  | .ints l, i => l[i]?.map (fun n => (n : Rat))
  | .uints l, i => l[i]?.map (fun n => (n : Rat))
  | .floats l, i => l[i]?
  | .doubles l, i => l[i]?
  | .chars _, _ => none
  | .tags _, _ => none
  | .items _, _ => none

/-- Modelled from the spec: vtkDICOMValue::Substring (header lines
281-282): the i-th backslash-delimited field of a character cell;
single-block text is one undelimited field; an out-of-range index
yields the empty range. -/
def SubstringAt (c : Cell) (i : Nat) : String :=
  match c.data with
  | .chars s =>
    if i < c.NumberOfValues then
      if c.VR.isTextSingle then s else (fieldsOf s).getD i ""
    else ""
  | _ => ""

/-- Modelled from the spec: GetString (header line 154 and the
conversion engine, spec 4.3): characters come from the i-th substring,
numbers are rendered to text, tags and items are not convertible to
text, an invalid value or out-of-range index gives the empty string. -/
def GetString (v : DValue) (i : Nat) : String :=
  match v with
  | none => ""
  | some c =>
    match c.data with
    | .chars _ => SubstringAt c i
    | d =>
      if i < c.NumberOfValues then
        match d.numAt i with
        | some q => renderRat q
        | none => ""
      else ""

/-- Modelled from the spec: the scalar read accessors GetUnsignedChar
... GetTag (header lines 147-162) and the conversion engine (spec
4.3).  An invalid value, an out-of-range index, or a request whose
category does not match the stored type yields zero; IS and DS cells
parse the indexed substring as a number; numeric cells convert
numerically; tags convert only to tags. -/
def GetScalar (k : SKind) (v : DValue) (i : Nat) : k.carrier :=
  match v with
  | none => k.zero
  | some c =>
    if i < c.NumberOfValues then
      match k, c.data with
      | .tg, .tags l => l.getD i ⟨0, 0⟩
      | .tg, _ => SKind.zero .tg
      | k, .tags _ => k.zero
      | k, .items _ => k.zero
      | k, .chars _ =>
        if c.VR = .IS ∨ c.VR = .DS then k.ofRat (parseRat (SubstringAt c i)) else k.zero
      | k, d =>
        match d.numAt i with
        | some q => k.ofRat q
        | none => k.zero
    else k.zero

/-- GetUnsignedChar, header line 155. -/
def GetUnsignedChar (v : DValue) (i : Nat) : Nat := GetScalar .u8 v i

/-- GetShort, header line 156. -/
def GetShort (v : DValue) (i : Nat) : Int := GetScalar .i16 v i

/-- GetUnsignedShort, header line 157. -/
def GetUnsignedShort (v : DValue) (i : Nat) : Nat := GetScalar .u16 v i

/-- GetInt, header line 158. -/
def GetInt (v : DValue) (i : Nat) : Int := GetScalar .i32 v i

/-- GetUnsignedInt, header line 159. -/
def GetUnsignedInt (v : DValue) (i : Nat) : Nat := GetScalar .u32 v i

/-- GetFloat, header line 160. -/
def GetFloat (v : DValue) (i : Nat) : Rat := GetScalar .f32 v i

/-- GetDouble, header line 161. -/
def GetDouble (v : DValue) (i : Nat) : Rat := GetScalar .f64 v i

/-- GetTag, header line 162. -/
def GetTag (v : DValue) (i : Nat) : vtkDICOMTag := GetScalar .tg v i

/-- Modelled from the spec: the single-value As accessors (header
lines 164-178): convert and return the value when NumberOfValues is
exactly one, and zero otherwise. -/
def AsScalar (k : SKind) (v : DValue) : k.carrier :=
  if GetNumberOfValues v = 1 then GetScalar k v 0 else k.zero

/-- AsString, header line 170: the single value as a string, or the
empty string when the multiplicity is not one. -/
def AsString (v : DValue) : String :=
  if GetNumberOfValues v = 1 then GetString v 0 else ""

/-- AsDouble, header line 177. -/
def AsDouble (v : DValue) : Rat := AsScalar .f64 v

/-- AsInt, header line 174. -/
def AsInt (v : DValue) : Int := AsScalar .i32 v

/-- Element-wise comparison of two lists under a given element test
(the loop inside ValueT::Compare): equal lengths and all elements
passing. -/
def listCmp {α : Type} (f : α → α → Bool) : List α → List α → Bool
  | [], [] => true
  | a :: as, b :: bs => f a b && listCmp f as bs
  | _, _ => false

/-- Modelled from the spec: ValueT::Compare (header lines 40-47),
element-wise equality of two trailing arrays of the same type, using
each element type's own equality. -/
def dataCompare : CellData → CellData → Bool
  | .chars s, .chars t => decide (s = t)
  | .uchars a, .uchars b => listCmp (fun x y => decide (x = y)) a b
  | .shorts a, .shorts b => listCmp (fun x y => decide (x = y)) a b
  | .ushorts a, .ushorts b => listCmp (fun x y => decide (x = y)) a b
  | .ints a, .ints b => listCmp (fun x y => decide (x = y)) a b
  | .uints a, .uints b => listCmp (fun x y => decide (x = y)) a b
  | .floats a, .floats b => listCmp (fun x y => decide (x = y)) a b
  | .doubles a, .doubles b => listCmp (fun x y => decide (x = y)) a b
  | .tags a, .tags b => listCmp (fun x y => decide (x = y)) a b
  | .items a, .items b => listCmp (fun x y => decide (x = y)) a b
  | _, _ => false

/-- Modelled from the spec: operator== (header line 254, spec 4.5).
Two handles are equal iff both are invalid, or both are valid with
equal VR, equal stored type, equal multiplicity and element-wise equal
data; the comparison never looks at addresses or reference counts. -/
def ValueEq (a b : DValue) : Bool :=
  match a, b with
  | none, none => true
  | some x, some y =>
    decide (x.VR = y.VR) && decide (x.data.typeTag = y.data.typeTag) &&
      decide (x.NumberOfValues = y.NumberOfValues) && dataCompare x.data y.data
  | _, _ => false

/-- The values the public interface can produce: the default invalid
value, the typed constructors, the string constructor, the sequence
constructor, and reallocation of an existing value. -/
inductive Reachable : DValue → Prop
  | invalid : Reachable none
  | create (vr : vtkDICOMVR) (k : SKind) (l : List k.carrier) : Reachable (CreateValue vr k l)
  | createString (vr : vtkDICOMVR) (s : String) : Reachable (CreateStringValue vr s)
  | createSeq (vr : vtkDICOMVR) (l : List vtkDICOMItem) : Reachable (CreateSequenceValue vr l)
  | realloc (v : DValue) (vn : Nat) : Reachable v → Reachable (ReallocateUnsignedCharData v vn)

/-- The element-count formula of the multi-value indexer, stated from
the GetNumberOfValues doc (header lines 113-126): fields for
backslash-delimited text, 1 for single-block text, byte length over
element size for binary data (hence the byte length itself for
other-byte and unknown data), the number of tags for AT, the number
of items for sequences. -/
def countFormula (c : Cell) : Nat :=
  match c.data with
  | .chars s => if c.VR.isTextSingle then 1 else (splitBS s.toList).length
  | .tags l => l.length
  | .items l => l.length
  | d => d.byteLength / d.elemSize

/-- A cell inside the heap model: the reference count together with
the cell content (struct Value, header lines 28-37). -/
structure RCell where
  ReferenceCount : Nat
  content : Cell
  deriving DecidableEq, Repr

/-- The heap of the reference-counting model: an association of
addresses to live reference-counted cells. -/
abbrev Heap := List (Nat × RCell)

/-- Look an address up in the heap. -/
def heapGet : Heap → Nat → Option RCell
  | [], _ => none
  | p :: t, a => if p.1 = a then some p.2 else heapGet t a

/-- Replace the cell at an address (first occurrence). -/
def heapSet : Heap → Nat → RCell → Heap
  | [], _, _ => []
  | p :: t, a, r => if p.1 = a then (a, r) :: t else p :: heapSet t a r

/-- Free the cell at an address (FreeValue, header line 263). -/
def heapRemove : Heap → Nat → Heap
  | [], _ => []
  | p :: t, a => if p.1 = a then t else p :: heapRemove t a

/-- A handle in the heap model: null, or the address of a cell. -/
abbrev HandleR := Option Nat

/-- The copy constructor (header lines 86-87): share the same cell
and increment its reference count; no payload is copied. -/
def copyValue (hp : Heap) (h : HandleR) : Heap × HandleR :=
  match h with
  | none => (hp, none)
  | some a =>
    match heapGet hp a with
    | none => (hp, some a)
    | some r => (heapSet hp a ⟨r.ReferenceCount + 1, r.content⟩, some a)

/-- Clear (header lines 99-102): decrement the reference count, free
the cell exactly when it reaches zero, and null the handle. -/
def clearValue (hp : Heap) (h : HandleR) : Heap × HandleR :=
  match h with
  | none => (hp, none)
  | some a =>
    match heapGet hp a with
    | none => (hp, none)
    | some r =>
      if r.ReferenceCount - 1 = 0 then (heapRemove hp a, none)
      else (heapSet hp a ⟨r.ReferenceCount - 1, r.content⟩, none)

/-- The content a handle observes through the heap. -/
def readValue (hp : Heap) (h : HandleR) : DValue :=
  match h with
  | none => none
  | some a => (heapGet hp a).map RCell.content

/-! Helper lemmas. -/

theorem roundUpEven_mod (n : Nat) : roundUpEven n % 2 = 0 := by
  unfold roundUpEven
  omega

theorem ratTrunc_intCast (v : Int) : ratTrunc (v : Rat) = v := by
  unfold ratTrunc
  by_cases h : (v : Rat) < 0
  · simp [h, Int.ceil_intCast]
  · simp [h, Int.floor_intCast]

theorem ratTrunc_natCast (v : Nat) : ratTrunc (v : Rat) = (v : Int) := by
  have h : ((v : Int) : Rat) = (v : Rat) := by push_cast; rfl
  rw [← h, ratTrunc_intCast]

theorem clampI_eq_self (lo hi x : Int) (h1 : lo ≤ x) (h2 : x ≤ hi) :
    clampI lo hi x = x := by
  unfold clampI
  omega

theorem clampN_eq_self (hi : Nat) (v : Nat) (h : v ≤ hi) :
    clampN hi (v : Int) = v := by
  unfold clampN clampI
  omega

theorem unsignedRoundTrip (hi : Nat) (v : Nat) (h : v ≤ hi) :
    clampN hi (ratTrunc (v : Rat)) = v := by
  rw [ratTrunc_natCast]
  exact clampN_eq_self hi v h

theorem signedRoundTrip (lo hi : Int) (v : Int) (h1 : lo ≤ v) (h2 : v ≤ hi) :
    clampI lo hi (ratTrunc (v : Rat)) = v := by
  rw [ratTrunc_intCast]
  exact clampI_eq_self lo hi v h1 h2

/-- Storing then re-reading a scalar of the cell's own kind is the
identity for in-range machine values (tags are stored structurally and
excluded here). -/
theorem SKind.ofRat_toRat (k : SKind) (hk : k ≠ .tg) (v : k.carrier)
    (h : k.inRange v) : k.ofRat (k.toRat v) = v := by
  cases k with
  | u8 => exact unsignedRoundTrip 255 v (Nat.lt_succ_iff.mp h)
  | u16 => exact unsignedRoundTrip 65535 v (Nat.lt_succ_iff.mp h)
  | u32 => exact unsignedRoundTrip 4294967295 v (Nat.lt_succ_iff.mp h)
  | i16 => exact signedRoundTrip (-32768) 32767 v h.1 (Int.lt_add_one_iff.mp h.2)
  | i32 => exact signedRoundTrip (-2147483648) 2147483647 v h.1 (Int.lt_add_one_iff.mp h.2)
  | f32 => rfl
  | f64 => rfl
  | tg => exact absurd rfl hk

/-- A VR that stores a kind exactly is not a text VR. -/
theorem storeKind_not_text :
    ∀ (vr : vtkDICOMVR) (k : SKind), vr.storeKind k = some k → vr.isText = false := by
  decide

/-- The stored kind is never the tag kind. -/
theorem storeKind_ne_tg :
    ∀ (vr : vtkDICOMVR) (k k2 : SKind), vr.storeKind k = some k2 → k2 ≠ .tg := by
  decide

/-- The binary kind of a VR is never the tag kind. -/
theorem binKind_ne_tg :
    ∀ (vr : vtkDICOMVR) (k2 : SKind), vr.binKind = some k2 → k2 ≠ .tg := by
  decide

/-- A VR with no binary kind stores no kind. -/
theorem storeKind_of_binKind_none :
    ∀ (vr : vtkDICOMVR) (k : SKind), vr.binKind = none → vr.storeKind k = none := by
  decide

/-- A compatible constructor call stores the data as a binary cell of
the very same kind. -/
theorem create_compat_numeric (vr : vtkDICOMVR) (k : SKind) (hk : k ≠ .tg)
    (hs : vr.storeKind k = some k) (l : List k.carrier) :
    CreateValue vr k l = some (mkBinCell vr k (convertList k k l)) := by
  have ht : vr.isText = false := storeKind_not_text vr k hs
  cases k <;> simp_all [CreateValue]

/-- Reading element zero of a freshly built one-element binary cell
converts the stored element back through the numeric rule. -/
theorem getScalar_bin_single (k : SKind) (hk : k ≠ .tg) (vr : vtkDICOMVR)
    (w : k.carrier) :
    GetScalar k (some (mkBinCell vr k [w])) 0 = k.ofRat (k.toRat w) := by
  cases k with
  | tg => exact absurd rfl hk
  | u8 => rfl
  | u16 => rfl
  | u32 => rfl
  | i16 => rfl
  | i32 => rfl
  | f32 => rfl
  | f64 => rfl

theorem GetNumberOfValues_mkBinCell (vr : vtkDICOMVR) (k : SKind)
    (l : List k.carrier) :
    GetNumberOfValues (some (mkBinCell vr k l)) = l.length := rfl

/-- listCmp with propositional-equality tests is list equality. -/
theorem listCmp_decide_eq {α : Type} [DecidableEq α] :
    ∀ (as bs : List α), listCmp (fun x y => decide (x = y)) as bs = true ↔ as = bs := by
  intro as
  induction as with
  | nil => intro bs; cases bs <;> simp [listCmp]
  | cons a t ih =>
    intro bs
    cases bs with
    | nil => simp [listCmp]
    | cons b u => simp [listCmp, ih]

/-- Element-wise comparison of trailing arrays coincides with equality
of the stored data. -/
theorem dataCompare_iff (d e : CellData) : dataCompare d e = true ↔ d = e := by
  cases d <;> cases e <;> simp [dataCompare, listCmp_decide_eq]

/-- ValueEq is reflexive. -/
theorem ValueEq_refl (v : DValue) : ValueEq v v = true := by
  cases v with
  | none => rfl
  | some c => simp [ValueEq, (dataCompare_iff c.data c.data).2 rfl]

theorem resizeBytes_length (l : List Nat) (vn : Nat) :
    (resizeBytes l vn).length = vn := by
  simp [resizeBytes]
  omega

theorem heapGet_heapSet_self (hp : Heap) (a : Nat) (r r' : RCell)
    (h : heapGet hp a = some r) : heapGet (heapSet hp a r') a = some r' := by
  induction hp with
  | nil => simp [heapGet] at h
  | cons p t ih =>
    by_cases hpa : p.1 = a
    · simp [heapGet, heapSet, hpa]
    · simp only [heapGet, heapSet, hpa, if_false, if_neg hpa] at h ⊢
      exact ih h

/-! The claims. -/

/-- C1: for every supported scalar kind and every machine-representable
value, constructing a value from a compatible VR and reading it back
with the single-value accessor of the same kind returns the value
unchanged (round-trip through storage and the conversion engine). -/
theorem as_construct_roundtrip (k : SKind) (vr : vtkDICOMVR) (v : k.carrier)
    (hc : compatible vr k = true) (hr : k.inRange v) :
    AsScalar k (CreateValue vr k [v]) = v := by
  cases hkt : decide (k = SKind.tg) with
  | true =>
    have hk : k = SKind.tg := of_decide_eq_true hkt
    subst hk
    have hvr : vr = .AT := by
      have := of_decide_eq_true hc
      exact this
    subst hvr
    simp [CreateValue, AsScalar, GetNumberOfValues, GetScalar, List.getD]
  | false =>
    have hk : k ≠ SKind.tg := of_decide_eq_false hkt
    have hs : vr.storeKind k = some k := by
      cases k <;> first
        | exact absurd rfl hk
        | exact of_decide_eq_true hc
    have hid : k.ofRat (k.toRat v) = v := SKind.ofRat_toRat k hk v hr
    have h1 : convertList k k [v] = [v] := by simp [convertList, hid]
    rw [create_compat_numeric vr k hk hs, h1]
    have h2 : GetNumberOfValues (some (mkBinCell vr k [v])) = 1 :=
      GetNumberOfValues_mkBinCell vr k [v]
    rw [AsScalar, h2, if_pos rfl]
    rw [getScalar_bin_single k hk vr v, hid]

/-- C1 witness: a signed short round-trips through an SS cell. -/
theorem as_construct_roundtrip_witness :
    compatible .SS .i16 = true ∧ SKind.inRange .i16 (-5 : Int) ∧
      AsScalar .i16 (CreateValue .SS .i16 [(-5 : Int)]) = -5 :=
  ⟨by decide, ⟨by decide, by decide⟩,
    as_construct_roundtrip .i16 .SS (-5) (by decide) ⟨by decide, by decide⟩⟩

/-- C2 (amended): for every value the public interface can produce,
GetVL() is either even or the undefined-length sentinel 0xffffffff
(which reallocation and sequence construction install). -/
theorem getVL_even_or_undefined (v : DValue) (h : Reachable v) :
    GetVL v % 2 = 0 ∨ GetVL v = VL_UNDEFINED := by
  induction h with
  | invalid => left; rfl
  | create vr k l =>
    left
    cases k with
    | tg =>
      by_cases hvr : vr = .AT <;>
        simp [CreateValue, hvr, GetVL] <;> omega
    | u8 =>
      by_cases ht : vr.isText = true
      · simp [CreateValue, ht, GetVL, mkTextCell, roundUpEven_mod]
      · cases hsk : vr.storeKind SKind.u8 <;>
          simp [CreateValue, ht, hsk, GetVL, mkBinCell, roundUpEven_mod]
    | i16 =>
      by_cases ht : vr.isText = true
      · simp [CreateValue, ht, GetVL, mkTextCell, roundUpEven_mod]
      · cases hsk : vr.storeKind SKind.i16 <;>
          simp [CreateValue, ht, hsk, GetVL, mkBinCell, roundUpEven_mod]
    | u16 =>
      by_cases ht : vr.isText = true
      · simp [CreateValue, ht, GetVL, mkTextCell, roundUpEven_mod]
      · cases hsk : vr.storeKind SKind.u16 <;>
          simp [CreateValue, ht, hsk, GetVL, mkBinCell, roundUpEven_mod]
    | i32 =>
      by_cases ht : vr.isText = true
      · simp [CreateValue, ht, GetVL, mkTextCell, roundUpEven_mod]
      · cases hsk : vr.storeKind SKind.i32 <;>
          simp [CreateValue, ht, hsk, GetVL, mkBinCell, roundUpEven_mod]
    | u32 =>
      by_cases ht : vr.isText = true
      · simp [CreateValue, ht, GetVL, mkTextCell, roundUpEven_mod]
      · cases hsk : vr.storeKind SKind.u32 <;>
          simp [CreateValue, ht, hsk, GetVL, mkBinCell, roundUpEven_mod]
    | f32 =>
      by_cases ht : vr.isText = true
      · simp [CreateValue, ht, GetVL, mkTextCell, roundUpEven_mod]
      · cases hsk : vr.storeKind SKind.f32 <;>
          simp [CreateValue, ht, hsk, GetVL, mkBinCell, roundUpEven_mod]
    | f64 =>
      by_cases ht : vr.isText = true
      · simp [CreateValue, ht, GetVL, mkTextCell, roundUpEven_mod]
      · cases hsk : vr.storeKind SKind.f64 <;>
          simp [CreateValue, ht, hsk, GetVL, mkBinCell, roundUpEven_mod]
  | createString vr s =>
    left
    by_cases ht : vr.isText = true
    · simp [CreateStringValue, ht, GetVL, mkTextCell, roundUpEven_mod]
    · cases hbk : vr.binKind <;>
        simp [CreateStringValue, ht, hbk, GetVL, mkBinCell, roundUpEven_mod]
  | createSeq vr l =>
    by_cases hvr : vr = .SQ ∨ vr = .XQ
    · right; simp [CreateSequenceValue, hvr, GetVL]
    · left; simp [CreateSequenceValue, hvr, GetVL]
  | realloc v vn hv ih =>
    cases v with
    | none => left; rfl
    | some c =>
      cases hd : c.data <;>
        simp_all [ReallocateUnsignedCharData, GetVL]

/-- C2 witness: a freshly constructed one-byte OB value. -/
theorem getVL_even_or_undefined_witness :
    GetVL (CreateValue .OB .u8 [1]) % 2 = 0 ∨
      GetVL (CreateValue .OB .u8 [1]) = VL_UNDEFINED :=
  getVL_even_or_undefined _ (Reachable.create .OB .u8 [1])

/-- C2 counterexample: the claim as stated fails, because a valid handle
whose cell was reallocated reports VL = 0xffffffff, which is odd. -/
theorem getVL_realloc_odd_counterexample :
    IsValid (ReallocateUnsignedCharData (CreateValue .OB .u8 [1, 2, 3, 4]) 10) = true ∧
      ¬ (GetVL (ReallocateUnsignedCharData (CreateValue .OB .u8 [1, 2, 3, 4]) 10) % 2 = 0) := by
  decide

/-- C3 (amended): every typed constructor yields an invalid handle when
the supplied element kind cannot be converted to the requested VR (and
the string and sequence constructors likewise); the explicit Allocate
calls, however, perform no such check. -/
theorem construct_incompatible_invalid :
    (∀ (vr : vtkDICOMVR) (k : SKind) (l : List k.carrier),
      convertible vr k = false → IsValid (CreateValue vr k l) = false) ∧
    (∀ (vr : vtkDICOMVR) (s : String),
      vr.isText = false → vr.binKind = none → IsValid (CreateStringValue vr s) = false) ∧
    (∀ (vr : vtkDICOMVR) (l : List vtkDICOMItem),
      ¬ (vr = .SQ ∨ vr = .XQ) → IsValid (CreateSequenceValue vr l) = false) := by
  refine ⟨?_, ?_, ?_⟩
  · intro vr k l hc
    cases k with
    | tg =>
      have hvr : vr ≠ .AT := by
        intro he
        subst he
        simp [convertible] at hc
      simp [CreateValue, hvr, IsValid]
    | u8 =>
      have ⟨ht, hb⟩ : vr.isText = false ∧ vr.binKind = none := by
        simpa [convertible, Option.isSome_iff_exists] using hc
      simp [CreateValue, ht, storeKind_of_binKind_none vr _ hb, IsValid]
    | i16 =>
      have ⟨ht, hb⟩ : vr.isText = false ∧ vr.binKind = none := by
        simpa [convertible, Option.isSome_iff_exists] using hc
      simp [CreateValue, ht, storeKind_of_binKind_none vr _ hb, IsValid]
    | u16 =>
      have ⟨ht, hb⟩ : vr.isText = false ∧ vr.binKind = none := by
        simpa [convertible, Option.isSome_iff_exists] using hc
      simp [CreateValue, ht, storeKind_of_binKind_none vr _ hb, IsValid]
    | i32 =>
      have ⟨ht, hb⟩ : vr.isText = false ∧ vr.binKind = none := by
        simpa [convertible, Option.isSome_iff_exists] using hc
      simp [CreateValue, ht, storeKind_of_binKind_none vr _ hb, IsValid]
    | u32 =>
      have ⟨ht, hb⟩ : vr.isText = false ∧ vr.binKind = none := by
        simpa [convertible, Option.isSome_iff_exists] using hc
      simp [CreateValue, ht, storeKind_of_binKind_none vr _ hb, IsValid]
    | f32 =>
      have ⟨ht, hb⟩ : vr.isText = false ∧ vr.binKind = none := by
        simpa [convertible, Option.isSome_iff_exists] using hc
      simp [CreateValue, ht, storeKind_of_binKind_none vr _ hb, IsValid]
    | f64 =>
      have ⟨ht, hb⟩ : vr.isText = false ∧ vr.binKind = none := by
        simpa [convertible, Option.isSome_iff_exists] using hc
      simp [CreateValue, ht, storeKind_of_binKind_none vr _ hb, IsValid]
  · intro vr s ht hb
    simp [CreateStringValue, ht, hb, IsValid]
  · intro vr l hvr
    simp [CreateSequenceValue, hvr, IsValid]

/-- C3 witness: tags cannot be stored under US; a string cannot build an
AT value; items cannot be stored under US. -/
theorem construct_incompatible_invalid_witness :
    IsValid (CreateValue .US .tg [⟨1, 2⟩]) = false ∧
      IsValid (CreateStringValue .AT "1") = false ∧
      IsValid (CreateSequenceValue .US []) = false :=
  ⟨construct_incompatible_invalid.1 .US .tg [⟨1, 2⟩] (by decide),
    construct_incompatible_invalid.2.1 .AT "1" (by decide) (by decide),
    construct_incompatible_invalid.2.2 .US [] (by decide)⟩

/-- C3 counterexample: the claim as stated fails for the explicit
allocation calls, which the header documents to do no checks: a char
allocation under the binary VR FD (incompatible with character data,
FD is not a text VR) still yields a valid handle. -/
theorem allocate_no_check_counterexample :
    IsValid (AllocateCharData .FD 4) = true ∧ vtkDICOMVR.isText .FD = false := by
  decide

/-- C7: reallocating an other-byte (OB/UN) cell to vn elements makes
GetNumberOfValues() report vn and GetVL() report the undefined-length
sentinel 0xffffffff; in particular a 4-element byte cell reallocated to
10 elements reports count 10 and the sentinel. -/
theorem realloc_count_and_vl :
    (∀ (c : Cell) (l : List Nat) (vn : Nat), c.data = .uchars l →
      GetNumberOfValues (ReallocateUnsignedCharData (some c) vn) = vn ∧
        GetVL (ReallocateUnsignedCharData (some c) vn) = VL_UNDEFINED) ∧
    (GetNumberOfValues (ReallocateUnsignedCharData (CreateValue .OB .u8 [1, 2, 3, 4]) 10) = 10 ∧
      GetVL (ReallocateUnsignedCharData (CreateValue .OB .u8 [1, 2, 3, 4]) 10) = VL_UNDEFINED) := by
  refine ⟨?_, by decide, by decide⟩
  intro c l vn hd
  simp [ReallocateUnsignedCharData, hd, GetNumberOfValues, GetVL]

/-- C7 witness: the general part applied to a concrete 4-byte cell. -/
theorem realloc_count_and_vl_witness :
    GetNumberOfValues (ReallocateUnsignedCharData
        (some ⟨.OB, 4, 4, .uchars [1, 2, 3, 4]⟩) 10) = 10 ∧
      GetVL (ReallocateUnsignedCharData
        (some ⟨.OB, 4, 4, .uchars [1, 2, 3, 4]⟩) 10) = VL_UNDEFINED :=
  realloc_count_and_vl.1 ⟨.OB, 4, 4, .uchars [1, 2, 3, 4]⟩ [1, 2, 3, 4] 10 rfl

/-- C8: a backslash-delimited text cell built from the bytes
A backslash B backslash C has element count 3; the string accessor
returns the three fields at indices 0, 1, 2 and the empty string at
index 3. -/
theorem text_substring_fields :
    GetNumberOfValues (CreateStringValue .CS "A\\B\\C") = 3 ∧
      GetString (CreateStringValue .CS "A\\B\\C") 0 = "A" ∧
      GetString (CreateStringValue .CS "A\\B\\C") 1 = "B" ∧
      GetString (CreateStringValue .CS "A\\B\\C") 2 = "C" ∧
      GetString (CreateStringValue .CS "A\\B\\C") 3 = "" := by
  decide

/-- C9: an integer-string cell stores text; the numeric accessor parses
it, returning 42 for the text 42, and 0 for the unparsable text abc. -/
theorem integer_string_parse :
    GetInt (CreateStringValue .IS "42") 0 = 42 ∧
      GetInt (CreateStringValue .IS "abc") 0 = 0 := by
  decide

theorem countFormula_mkBinCell (vr : vtkDICOMVR) (k : SKind) (hk : k ≠ .tg)
    (l : List k.carrier) : countFormula (mkBinCell vr k l) = l.length := by
  cases k with
  | tg => exact absurd rfl hk
  | u8 => simp [countFormula, mkBinCell, SKind.pack, CellData.byteLength, CellData.elemSize]
  | u16 => simp [countFormula, mkBinCell, SKind.pack, CellData.byteLength, CellData.elemSize]
  | u32 => simp [countFormula, mkBinCell, SKind.pack, CellData.byteLength, CellData.elemSize]
  | i16 => simp [countFormula, mkBinCell, SKind.pack, CellData.byteLength, CellData.elemSize]
  | i32 => simp [countFormula, mkBinCell, SKind.pack, CellData.byteLength, CellData.elemSize]
  | f32 => simp [countFormula, mkBinCell, SKind.pack, CellData.byteLength, CellData.elemSize]
  | f64 => simp [countFormula, mkBinCell, SKind.pack, CellData.byteLength, CellData.elemSize]

theorem countFormula_of_create_num (vr : vtkDICOMVR) (k : SKind) (_hk : k ≠ .tg)
    (l : List k.carrier) (c : Cell)
    (hc : (if vr.isText then some (mkTextCell vr (String.intercalate "\\" (l.map k.render)))
      else match vr.storeKind k with
        | some k2 => some (mkBinCell vr k2 (convertList k k2 l))
        | none => none) = some c) :
    c.NumberOfValues = countFormula c := by
  by_cases ht : vr.isText = true
  · simp only [ht, if_true, Option.some.injEq] at hc
    subst hc
    rfl
  · cases hsk : vr.storeKind k with
    | none => simp [ht, hsk] at hc
    | some k2 =>
      simp only [ht, hsk, if_false, Bool.false_eq_true, Option.some.injEq] at hc
      subst hc
      rw [countFormula_mkBinCell vr k2 (storeKind_ne_tg vr k k2 hsk)]
      rfl

theorem countFormula_of_create (vr : vtkDICOMVR) (k : SKind) (l : List k.carrier)
    (c : Cell) (hc : CreateValue vr k l = some c) :
    c.NumberOfValues = countFormula c := by
  cases k with
  | tg =>
    by_cases hvr : vr = .AT
    · simp only [CreateValue, hvr, if_true, Option.some.injEq] at hc
      subst hc
      rfl
    · simp [CreateValue, hvr] at hc
  | u8 => exact countFormula_of_create_num vr .u8 (by decide) l c hc
  | u16 => exact countFormula_of_create_num vr .u16 (by decide) l c hc
  | u32 => exact countFormula_of_create_num vr .u32 (by decide) l c hc
  | i16 => exact countFormula_of_create_num vr .i16 (by decide) l c hc
  | i32 => exact countFormula_of_create_num vr .i32 (by decide) l c hc
  | f32 => exact countFormula_of_create_num vr .f32 (by decide) l c hc
  | f64 => exact countFormula_of_create_num vr .f64 (by decide) l c hc

theorem countFormula_of_createString (vr : vtkDICOMVR) (s : String) (c : Cell)
    (hc : CreateStringValue vr s = some c) : c.NumberOfValues = countFormula c := by
  by_cases ht : vr.isText = true
  · simp only [CreateStringValue, ht, if_true, Option.some.injEq] at hc
    subst hc
    rfl
  · cases hbk : vr.binKind with
    | none => simp [CreateStringValue, ht, hbk] at hc
    | some k2 =>
      simp only [CreateStringValue, ht, hbk, if_false, Bool.false_eq_true,
        Option.some.injEq] at hc
      subst hc
      rw [countFormula_mkBinCell vr k2 (binKind_ne_tg vr k2 hbk)]
      rfl

theorem countFormula_of_createSeq (vr : vtkDICOMVR) (l : List vtkDICOMItem) (c : Cell)
    (hc : CreateSequenceValue vr l = some c) : c.NumberOfValues = countFormula c := by
  by_cases hvr : vr = .SQ ∨ vr = .XQ
  · simp only [CreateSequenceValue, hvr, if_true, Option.some.injEq] at hc
    subst hc
    rfl
  · simp [CreateSequenceValue, hvr] at hc

/-- C4 counterexample: the claim as stated quantifies over every valid
value, but a value produced by an explicit Allocate call is valid with
the caller's requested element count installed unchecked, and need not
satisfy the formula: AllocateCharData under the backslash-text VR CS
with 4 elements yields a valid cell whose NumberOfValues is 4 while
the formula counts 1 field in its space-filled buffer. -/
theorem allocate_count_gap_counterexample :
    IsValid (AllocateCharData .CS 4) = true ∧
      AllocateCharData .CS 4 = some ⟨.CS, 4, 4, .chars "    "⟩ ∧
      ¬ ((⟨.CS, 4, 4, CellData.chars "    "⟩ : Cell).NumberOfValues
        = countFormula ⟨.CS, 4, 4, CellData.chars "    "⟩) := by
  decide

/-- C4 (amended): every valid value produced by the typed, string or
sequence constructors, or by reallocating such a value, satisfies the
VR-category element-count formula: backslash-separated fields for
delimited text, 1 for single-block text, byte length over element
size for binary and other-byte data, the number of tag pairs for AT,
and the number of items for sequences.  Values produced by the
explicit Allocate calls are exempt: they install the caller's element
count without any recomputation from the (not yet filled) buffer. -/
theorem numberOfValues_formula (v : DValue) (h : Reachable v) (c : Cell)
    (hv : v = some c) : c.NumberOfValues = countFormula c := by
  induction h generalizing c with
  | invalid => exact absurd hv (by simp)
  | create vr k l => exact countFormula_of_create vr k l c hv
  | createString vr s => exact countFormula_of_createString vr s c hv
  | createSeq vr l => exact countFormula_of_createSeq vr l c hv
  | realloc w vn hw ih =>
    cases w with
    | none => exact absurd hv (by simp [ReallocateUnsignedCharData])
    | some c0 =>
      cases hd : c0.data with
      | uchars l =>
        simp only [ReallocateUnsignedCharData, hd, Option.some.injEq] at hv
        subst hv
        simp [countFormula, CellData.byteLength, CellData.elemSize, resizeBytes_length]
      | chars s =>
        simp only [ReallocateUnsignedCharData, hd, Option.some.injEq] at hv
        exact hv ▸ ih c0 rfl
      | shorts l =>
        simp only [ReallocateUnsignedCharData, hd, Option.some.injEq] at hv
        exact hv ▸ ih c0 rfl
      | ushorts l =>
        simp only [ReallocateUnsignedCharData, hd, Option.some.injEq] at hv
        exact hv ▸ ih c0 rfl
      | ints l =>
        simp only [ReallocateUnsignedCharData, hd, Option.some.injEq] at hv
        exact hv ▸ ih c0 rfl
      | uints l =>
        simp only [ReallocateUnsignedCharData, hd, Option.some.injEq] at hv
        exact hv ▸ ih c0 rfl
      | floats l =>
        simp only [ReallocateUnsignedCharData, hd, Option.some.injEq] at hv
        exact hv ▸ ih c0 rfl
      | doubles l =>
        simp only [ReallocateUnsignedCharData, hd, Option.some.injEq] at hv
        exact hv ▸ ih c0 rfl
      | tags l =>
        simp only [ReallocateUnsignedCharData, hd, Option.some.injEq] at hv
        exact hv ▸ ih c0 rfl
      | items l =>
        simp only [ReallocateUnsignedCharData, hd, Option.some.injEq] at hv
        exact hv ▸ ih c0 rfl

/-- C4 witness: the three-field text value satisfies the formula. -/
theorem numberOfValues_formula_witness :
    (⟨.CS, 6, 3, CellData.chars "A\\B\\C"⟩ : Cell).NumberOfValues
      = countFormula ⟨.CS, 6, 3, CellData.chars "A\\B\\C"⟩ :=
  numberOfValues_formula _ (Reachable.createString .CS "A\\B\\C")
    ⟨.CS, 6, 3, CellData.chars "A\\B\\C"⟩ (by decide)

/-- C5: two handles compare equal iff both are invalid, or both are
valid with equal VR, equal element count and element-wise equal data;
the comparison sees only the content (the model carries no addresses
and no reference count in the compared cells), so two independently
constructed cells with identical VR and fields compare equal and
changing one element breaks equality. -/
theorem value_equality_characterization :
    (∀ a b : DValue, ValueEq a b = true ↔
      (a = none ∧ b = none) ∨ ∃ x y, a = some x ∧ b = some y ∧
        x.VR = y.VR ∧ x.NumberOfValues = y.NumberOfValues ∧ x.data = y.data) ∧
    ValueEq (CreateStringValue .CS "A\\B\\C") (CreateStringValue .CS "A\\B\\C") = true ∧
    ValueEq (CreateStringValue .CS "A\\B\\C") (CreateStringValue .CS "A\\B\\D") = false := by
  refine ⟨?_, by decide, by decide⟩
  intro a b
  cases a with
  | none => cases b <;> simp [ValueEq]
  | some x =>
    cases b with
    | none => simp [ValueEq]
    | some y =>
      simp only [ValueEq, Bool.and_eq_true, decide_eq_true_eq, dataCompare_iff,
        Option.some.injEq, reduceCtorEq, false_and, false_or]
      constructor
      · rintro ⟨⟨⟨h1, h2⟩, h3⟩, h4⟩
        exact ⟨x, y, rfl, rfl, h1, h3, h4⟩
      · rintro ⟨x', y', rfl, rfl, h1, h3, h4⟩
        exact ⟨⟨⟨h1, by rw [h4]⟩, h3⟩, h4⟩

/-- C6: every read accessor resolves its failure cases locally to zero
or empty: an invalid handle, an out-of-range index, or a request whose
category does not match the stored type (items or tags read as
numbers, anything but tags read as a tag, tags or items read as text,
non-numeric text read as a number) all yield the zero of the requested
kind or the empty string, and the accessors are total functions. -/
theorem read_failure_yields_zero :
    (∀ (k : SKind) (i : Nat), GetScalar k none i = k.zero) ∧
    (∀ i : Nat, GetString none i = "") ∧
    (∀ (k : SKind) (c : Cell) (i : Nat), c.NumberOfValues ≤ i →
      GetScalar k (some c) i = k.zero) ∧
    (∀ (c : Cell) (i : Nat), c.NumberOfValues ≤ i → GetString (some c) i = "") ∧
    (∀ (k : SKind) (c : Cell) (i : Nat) (l : List vtkDICOMItem), c.data = .items l →
      GetScalar k (some c) i = k.zero) ∧
    (∀ (k : SKind) (c : Cell) (i : Nat) (l : List vtkDICOMTag), k ≠ .tg →
      c.data = .tags l → GetScalar k (some c) i = k.zero) ∧
    (∀ (c : Cell) (i : Nat), (∀ l : List vtkDICOMTag, c.data ≠ .tags l) →
      GetScalar .tg (some c) i = SKind.zero .tg) ∧
    (∀ (c : Cell) (i : Nat) (l : List vtkDICOMTag), c.data = .tags l →
      GetString (some c) i = "") ∧
    (∀ (c : Cell) (i : Nat) (l : List vtkDICOMItem), c.data = .items l →
      GetString (some c) i = "") ∧
    (∀ (k : SKind) (c : Cell) (i : Nat) (s : String), k ≠ .tg → c.data = .chars s →
      ¬ (c.VR = .IS ∨ c.VR = .DS) → GetScalar k (some c) i = k.zero) := by
  refine ⟨fun k i => rfl, fun i => rfl, ?_, ?_, ?_, ?_, ?_, ?_, ?_, ?_⟩
  · intro k c i h
    simp [GetScalar, Nat.not_lt.2 h]
  · intro c i h
    cases hd : c.data <;> simp [GetString, SubstringAt, hd, Nat.not_lt.2 h]
  · intro k c i l hd
    cases k <;> simp [GetScalar, hd]
  · intro k c i l hk hd
    cases k <;> first
      | exact absurd rfl hk
      | simp [GetScalar, hd]
  · intro c i hne
    cases hd : c.data with
    | tags l => exact absurd hd (hne l)
    | chars s => simp [GetScalar, hd]
    | uchars l => simp [GetScalar, hd]
    | shorts l => simp [GetScalar, hd]
    | ushorts l => simp [GetScalar, hd]
    | ints l => simp [GetScalar, hd]
    | uints l => simp [GetScalar, hd]
    | floats l => simp [GetScalar, hd]
    | doubles l => simp [GetScalar, hd]
    | items l => simp [GetScalar, hd]
  · intro c i l hd
    simp [GetString, hd, CellData.numAt]
  · intro c i l hd
    simp [GetString, hd, CellData.numAt]
  · intro k c i s hk hd hvr
    cases k <;> first
      | exact absurd rfl hk
      | simp [GetScalar, hd, hvr]

/-- C6 witness: each failure case at a concrete input. -/
theorem read_failure_yields_zero_witness :
    GetScalar .i32 none 0 = SKind.zero .i32 ∧
    GetString none 7 = "" ∧
    GetScalar .u8 (some ⟨.SS, 6, 3, .shorts [1, 2, 3]⟩) 5 = SKind.zero .u8 ∧
    GetString (some ⟨.SS, 6, 3, .shorts [1, 2, 3]⟩) 5 = "" ∧
    GetScalar .i32 (some ⟨.SQ, 0xffffffff, 1, .items [⟨1⟩]⟩) 0 = SKind.zero .i32 ∧
    GetScalar .i32 (some ⟨.AT, 4, 1, .tags [⟨1, 2⟩]⟩) 0 = SKind.zero .i32 ∧
    GetScalar .tg (some ⟨.SS, 2, 1, .shorts [5]⟩) 0 = SKind.zero .tg ∧
    GetString (some ⟨.AT, 4, 1, .tags [⟨1, 2⟩]⟩) 0 = "" ∧
    GetString (some ⟨.SQ, 0xffffffff, 1, .items [⟨1⟩]⟩) 0 = "" ∧
    GetScalar .i32 (some ⟨.CS, 2, 1, .chars "AB"⟩) 0 = SKind.zero .i32 :=
  ⟨read_failure_yields_zero.1 .i32 0,
    read_failure_yields_zero.2.1 7,
    read_failure_yields_zero.2.2.1 .u8 ⟨.SS, 6, 3, .shorts [1, 2, 3]⟩ 5 (by decide),
    read_failure_yields_zero.2.2.2.1 ⟨.SS, 6, 3, .shorts [1, 2, 3]⟩ 5 (by decide),
    read_failure_yields_zero.2.2.2.2.1 .i32 ⟨.SQ, 0xffffffff, 1, .items [⟨1⟩]⟩ 0 [⟨1⟩] rfl,
    read_failure_yields_zero.2.2.2.2.2.1 .i32 ⟨.AT, 4, 1, .tags [⟨1, 2⟩]⟩ 0 [⟨1, 2⟩]
      (by decide) rfl,
    read_failure_yields_zero.2.2.2.2.2.2.1 ⟨.SS, 2, 1, .shorts [5]⟩ 0
      (fun l h => by simp at h),
    read_failure_yields_zero.2.2.2.2.2.2.2.1 ⟨.AT, 4, 1, .tags [⟨1, 2⟩]⟩ 0 [⟨1, 2⟩] rfl,
    read_failure_yields_zero.2.2.2.2.2.2.2.2.1 ⟨.SQ, 0xffffffff, 1, .items [⟨1⟩]⟩ 0
      [⟨1⟩] rfl,
    read_failure_yields_zero.2.2.2.2.2.2.2.2.2 .i32 ⟨.CS, 2, 1, .chars "AB"⟩ 0 "AB"
      (by decide) rfl (by decide)⟩

/-- C10: copying a handle shares the cell (the copy holds the same
address), and clearing the original afterwards leaves the surviving
copy's observable content exactly what it was, still equal (under
operator==) to any handle referencing the shared cell: copy only
adjusts the reference count and never touches the payload. -/
theorem copy_clear_preserves_content (hp : Heap) (a : Nat) (r : RCell)
    (hg : heapGet hp a = some r) (hrc : 1 ≤ r.ReferenceCount) :
    (copyValue hp (some a)).2 = some a ∧
    readValue (clearValue (copyValue hp (some a)).1 (some a)).1 ((copyValue hp (some a)).2)
      = some r.content ∧
    readValue (clearValue (copyValue hp (some a)).1 (some a)).1 ((copyValue hp (some a)).2)
      = readValue hp (some a) ∧
    ValueEq
      (readValue (clearValue (copyValue hp (some a)).1 (some a)).1 ((copyValue hp (some a)).2))
      (readValue (clearValue (copyValue hp (some a)).1 (some a)).1 (some a)) = true := by
  have hcopy : copyValue hp (some a)
      = (heapSet hp a ⟨r.ReferenceCount + 1, r.content⟩, some a) := by
    simp [copyValue, hg]
  have hg1 : heapGet (heapSet hp a ⟨r.ReferenceCount + 1, r.content⟩) a
      = some ⟨r.ReferenceCount + 1, r.content⟩ :=
    heapGet_heapSet_self hp a r _ hg
  have hne : ¬ (r.ReferenceCount = 0) := by omega
  have hclear : clearValue (heapSet hp a ⟨r.ReferenceCount + 1, r.content⟩) (some a)
      = (heapSet (heapSet hp a ⟨r.ReferenceCount + 1, r.content⟩) a
          ⟨r.ReferenceCount, r.content⟩, none) := by
    simp [clearValue, hg1, hne]
  have hg2 : heapGet (heapSet (heapSet hp a ⟨r.ReferenceCount + 1, r.content⟩) a
      ⟨r.ReferenceCount, r.content⟩) a = some ⟨r.ReferenceCount, r.content⟩ :=
    heapGet_heapSet_self _ a ⟨r.ReferenceCount + 1, r.content⟩ _ hg1
  rw [hcopy, hclear]
  refine ⟨rfl, ?_, ?_, ?_⟩
  · simp [readValue, hg2]
  · simp [readValue, hg2, hg]
  · simp [readValue, hg2, ValueEq_refl]

/-- C10 witness: a one-cell heap holding a two-byte OB value. -/
theorem copy_clear_preserves_content_witness :
    (copyValue [(0, ⟨1, ⟨.OB, 2, 2, .uchars [1, 2]⟩⟩)] (some 0)).2 = some 0 ∧
    readValue (clearValue (copyValue [(0, ⟨1, ⟨.OB, 2, 2, .uchars [1, 2]⟩⟩)] (some 0)).1
        (some 0)).1 ((copyValue [(0, ⟨1, ⟨.OB, 2, 2, .uchars [1, 2]⟩⟩)] (some 0)).2)
      = some (⟨.OB, 2, 2, .uchars [1, 2]⟩ : Cell) ∧
    readValue (clearValue (copyValue [(0, ⟨1, ⟨.OB, 2, 2, .uchars [1, 2]⟩⟩)] (some 0)).1
        (some 0)).1 ((copyValue [(0, ⟨1, ⟨.OB, 2, 2, .uchars [1, 2]⟩⟩)] (some 0)).2)
      = readValue [(0, ⟨1, ⟨.OB, 2, 2, .uchars [1, 2]⟩⟩)] (some 0) ∧
    ValueEq
      (readValue (clearValue (copyValue [(0, ⟨1, ⟨.OB, 2, 2, .uchars [1, 2]⟩⟩)] (some 0)).1
        (some 0)).1 ((copyValue [(0, ⟨1, ⟨.OB, 2, 2, .uchars [1, 2]⟩⟩)] (some 0)).2))
      (readValue (clearValue (copyValue [(0, ⟨1, ⟨.OB, 2, 2, .uchars [1, 2]⟩⟩)] (some 0)).1
        (some 0)).1 (some 0)) = true :=
  copy_clear_preserves_content [(0, ⟨1, ⟨.OB, 2, 2, .uchars [1, 2]⟩⟩)] 0
    ⟨1, ⟨.OB, 2, 2, .uchars [1, 2]⟩⟩ (by decide) (by decide)

end VtkDicom
